import Mathlib

/-!
Verification of the HyperDeck transport-control core: a shallow embedding of
the device-communication and state-derivation layer of the repository
(`blackmagic-transport.py` and its evolution `v2.py`), together with theorems
settling the specification's claims about it.

Python values flowing through the layer are JSON-like documents; they are
modelled by `PyVal`.  Python dictionaries are modelled as association lists
with unique keys; `dict.get` is `pyGet`.  Machine-level details that matter
are embedded explicitly: Python `str.strip`, Python `%02d` formatting, Python
`divmod` (floor division), Python truthiness of containers, and the fact that
`bool` is a subclass of `int`.
-/

/-- A Python/JSON value as it appears in device responses. -/
inductive PyVal where
  | str (s : String)
  | int (n : Int)
  | float (q : ℚ)
  | bool (b : Bool)
  | none
  | list (xs : List PyVal)
  | dict (kvs : List (String × PyVal))

/-- Python `d.get(k)` on a dict modelled as an association list: the binding
for `k`, if any.  (A stored JSON `null` is `some PyVal.none`, which every
use-site below treats the same way as an absent key, exactly as the Python
code does via `dict.get` returning `None`.) -/
def pyGet (kvs : List (String × PyVal)) (k : String) : Option PyVal :=
  match kvs.find? (fun e => e.1 == k) with
  | some e => some e.2
  | Option.none => Option.none

/-- Characters removed by Python `str.strip()` (ASCII whitespace). -/
def isPyWhitespace (c : Char) : Bool :=
  c = ' ' || c = '\t' || c = '\n' || c = '\r' || c = '\x0b' || c = '\x0c'

/-- Python `s.strip()`. -/
def pyStrip (s : String) : String :=
  String.mk (((s.toList.dropWhile isPyWhitespace).reverse.dropWhile isPyWhitespace).reverse)

/-- ASCII lowercasing of a character, as Python `str.lower` acts on ASCII. -/
def pyLowerChar (c : Char) : Char :=
  if 'A' ≤ c && c ≤ 'Z' then Char.ofNat (c.toNat + 32) else c

/-- Python `s.lower()`.  (Python also lowercases non-ASCII letters, but no
non-ASCII lowercasing can produce any of the pure-ASCII words this layer
compares against, so ASCII lowercasing is extensionally faithful here.) -/
def pyLower (s : String) : String :=
  String.mk (s.toList.map pyLowerChar)

/-- Embedding of the code's `truthy` lambda: whether `str(x).lower()` is one of
`"1"`, `"true"`, `"yes"`, `"on"`, applied to the result of
`transport_data.get(key)`.  Case analysis on the Python `str` rendering of
each value kind:
* a missing key yields `None`, whose rendering is `"none"` — not in the set;
* `str s` renders as `s` itself — member iff its lowercase form is in the set;
* `int n` renders as its decimal digits (already lowercase) — member iff `n = 1`;
* `bool b` renders as `"True"`/`"False"`, lowercased `"true"`/`"false"` — member iff `b`;
* a float renders with a decimal point, exponent, or as `"inf"`/`"nan"` — never a member;
* `None`, lists and dicts render as `"None"` or bracketed text — never members. -/
def truthy : Option PyVal → Bool
  | some (.str s) => ["1", "true", "yes", "on"].contains (pyLower s)
  | some (.int n) => n == 1
  | some (.bool b) => b
  | some (.float _) => false
  | some .none => false
  | some (.list _) => false
  | some (.dict _) => false
  | Option.none => false

/-- The ordered candidate field names scanned by `derive_state`. -/
def stateKeys : List String :=
  ["status", "state", "transport", "transportState", "transportMode", "mode", "playbackStatus"]

/-- The `for key in [...]` loop of `derive_state`: return the first value that
`isinstance(value, str) and value.strip()` accepts (the value itself, not its
stripped form), else fall through. -/
def deriveStateLoop (tr : List (String × PyVal)) : List String → Option String
  | [] => Option.none
  | k :: ks =>
    match pyGet tr k with
    | some (.str v) => if pyStrip v = "" then deriveStateLoop tr ks else some v
    | _ => deriveStateLoop tr ks

/-- Embedding of `derive_state` from `v2.py` (the evolved file; the earlier file is
identical except that its final fallback returns lowercase `"unknown"`). -/
def derive_state (transport_data : List (String × PyVal)) : String :=
  match deriveStateLoop transport_data stateKeys with
  | some v => v
  | Option.none =>
    if truthy (pyGet transport_data "isRecording") || truthy (pyGet transport_data "recording") then
      "Recording"
    else if truthy (pyGet transport_data "isPlaying") || truthy (pyGet transport_data "playing") then
      "Playing"
    else if truthy (pyGet transport_data "isStopped") || truthy (pyGet transport_data "stopped") then
      "Stopped"
    else
      "Unknown"

/-- Claim-side scan, written from the (amended) claim's words with
`List.findSome?`: the value of the first field whose value is a string with
non-empty trimmed content, returned verbatim. -/
def stateFieldClaim (tr : List (String × PyVal)) : Option String :=
  stateKeys.findSome? fun k =>
    match pyGet tr k with
    | some (.str s) => if pyStrip s = "" then Option.none else some s
    | _ => Option.none

/-- The amended claim C1 as a function: first candidate field holding a string
with non-empty trim, returned verbatim; otherwise the recording/playing/stopped
flag fallbacks in priority order; otherwise `"Unknown"`. -/
def deriveStateClaim (tr : List (String × PyVal)) : String :=
  match stateFieldClaim tr with
  | some s => s
  | Option.none =>
    if truthy (pyGet tr "isRecording") || truthy (pyGet tr "recording") then "Recording"
    else if truthy (pyGet tr "isPlaying") || truthy (pyGet tr "playing") then "Playing"
    else if truthy (pyGet tr "isStopped") || truthy (pyGet tr "stopped") then "Stopped"
    else "Unknown"

/-! ### Timecode derivation -/

/-- Python `f"\x7bn:02d\x7d"`: decimal rendering zero-padded to a minimum
total width of two characters (a sign counts toward the width, so `-1`
renders as `"-1"`). -/
def pyFmt02 (n : Int) : String :=
  let s := toString n
  if s.length < 2 then "0" ++ s else s

/-- Python `int()` applied to a rational (float): truncation toward zero. -/
def ratTrunc (q : ℚ) : Int :=
  if 0 ≤ q then q.floor else q.ceil

/-- Python `int(value)` for a value passing `isinstance(value, (int, float))`.
Note that Python `bool` is a subclass of `int`, so `True`/`False` pass the
check and convert to `1`/`0`. -/
def pyIntOf : PyVal → Option Int
  | .int n => some n
  | .float q => some (ratTrunc q)
  | .bool b => some (if b then 1 else 0)
  | _ => Option.none

/-- The body of `derive_timecode`'s numeric branch:
`hours, remainder = divmod(seconds, 3600); minutes, seconds = divmod(remainder, 60)`
followed by the `HH:MM:SS:00` format string.  Python `divmod` on ints is
floor division with the corresponding remainder (`Int.fdiv`/`Int.fmod`). -/
def fmtSecondsTC (seconds : Int) : String :=
  let hours := seconds.fdiv 3600
  let remainder := seconds.fmod 3600
  let minutes := remainder.fdiv 60
  let secs := remainder.fmod 60
  pyFmt02 hours ++ ":" ++ pyFmt02 minutes ++ ":" ++ pyFmt02 secs ++ ":00"

/-- The ordered candidate field names scanned by `derive_timecode`. -/
def tcKeys : List String := ["position", "timecode", "time", "tc", "currentTimecode"]

/-- The `for key in [...]` loop of `derive_timecode`: a string value with
non-empty strip is returned verbatim; otherwise a value passing
`isinstance(value, (int, float))` is converted with `int` and formatted;
otherwise the loop continues. -/
def deriveTimecodeLoop (tr : List (String × PyVal)) : List String → Option String
  | [] => Option.none
  | k :: ks =>
    match pyGet tr k with
    | some (.str v) => if pyStrip v = "" then deriveTimecodeLoop tr ks else some v
    | some v =>
      match pyIntOf v with
      | some n => some (fmtSecondsTC n)
      | Option.none => deriveTimecodeLoop tr ks
    | Option.none => deriveTimecodeLoop tr ks

/-- Embedding of `derive_timecode` from the source (identical in both files). -/
def derive_timecode (transport_data : List (String × PyVal)) : String :=
  match deriveTimecodeLoop transport_data tcKeys with
  | some s => s
  | Option.none => "00:00:00:00"

/-- Claim-side candidate scan for C2, written from the claim's words: the
first usable candidate, where a usable candidate is either a string with
non-blank content (`Sum.inl`, taken verbatim) or a numeric value read as a
whole-second count (`Sum.inr`). -/
def tcCandidateClaim (tr : List (String × PyVal)) : Option (String ⊕ Int) :=
  tcKeys.findSome? fun k =>
    match pyGet tr k with
    | some (.str s) => if pyStrip s = "" then Option.none else some (Sum.inl s)
    | some v => (pyIntOf v).map Sum.inr
    | Option.none => Option.none

/-- Claim C2 as a function: first usable candidate decides — a string is
returned verbatim, a number `n` is formatted as `HH:MM:SS:00` with zero-padded
two-digit fields and the frame field hard-coded to `00`; with no usable
candidate the result is `"00:00:00:00"`. -/
def deriveTimecodeClaim (tr : List (String × PyVal)) : String :=
  match tcCandidateClaim tr with
  | some (Sum.inl s) => s
  | some (Sum.inr n) =>
    pyFmt02 (n.fdiv 3600) ++ ":" ++ pyFmt02 ((n.fmod 3600).fdiv 60) ++ ":" ++
      pyFmt02 ((n.fmod 3600).fmod 60) ++ ":00"
  | Option.none => "00:00:00:00"

/-! ### Clip-name derivation -/

/-- The ordered candidate field names scanned by `derive_active_clip_name`. -/
def clipKeys : List String := ["name", "clipName", "title", "filename"]

/-- The `for key in [...]` loop of `derive_active_clip_name`. -/
def deriveClipLoop (kvs : List (String × PyVal)) : List String → Option String
  | [] => Option.none
  | k :: ks =>
    match pyGet kvs k with
    | some (.str v) => if pyStrip v = "" then deriveClipLoop kvs ks else some v
    | _ => deriveClipLoop kvs ks

/-- Embedding of `derive_active_clip_name` from `v2.py` (the earlier file is identical
except that its final fallback returns lowercase `"unnamed"`).  The guard
`if not clip_info` is Python truthiness on an `Optional[Dict]`: it holds for
`None` and also for the empty dict. -/
def derive_active_clip_name (clip_info : Option (List (String × PyVal))) : String :=
  match clip_info with
  | Option.none => "—"
  | some kvs =>
    if kvs.isEmpty then "—"
    else
      match deriveClipLoop kvs clipKeys with
      | some v => v
      | Option.none => "Unnamed"

/-- The amended claim C3 as a function: absent or empty clip objects give the
placeholder; otherwise the first candidate field holding a string with
non-blank content is returned verbatim, else `"Unnamed"`. -/
def deriveClipNameClaim (clip_info : Option (List (String × PyVal))) : String :=
  match clip_info with
  | Option.none => "—"
  | some [] => "—"
  | some kvs =>
    match clipKeys.findSome? (fun k =>
        match pyGet kvs k with
        | some (.str s) => if pyStrip s = "" then Option.none else some s
        | _ => Option.none) with
    | some s => s
    | Option.none => "Unnamed"

/-! ### The HTTP request layer with retry/backoff

The network is modelled by an oracle `f : Nat → NetOutcome` giving the outcome
the device produces for attempt number `n` of a single logical request. -/

/-- What one HTTP attempt yields before `raise_for_status` is applied: either a
transport-level `requests.RequestException`, or a response with a status code,
raw body text, and the result of trying to parse the body as JSON. -/
inductive NetOutcome where
  | netErr (msg : String)
  | resp (status : Nat) (content : String) (json : Option PyVal)

/-- A `requests.Response` as far as this layer inspects it. -/
structure Response where
  status : Nat
  content : String
  json : Option PyVal

/-- The body of the `try:` block of `_request_with_retry` for one attempt:
perform the request and apply `response.raise_for_status()`, which raises
`requests.HTTPError` (a `RequestException`) exactly for status codes in
`[400, 600)`. -/
def tryAttempt : NetOutcome → Except String Response
  | .netErr msg => Except.error msg
  | .resp s c j =>
    if 400 ≤ s && s < 600 then Except.error ("HTTPError " ++ toString s)
    else Except.ok ⟨s, c, j⟩

/-- Whether an attempt outcome survives `raise_for_status`. -/
def attemptOK (o : NetOutcome) : Bool :=
  match tryAttempt o with
  | Except.ok _ => true
  | Except.error _ => false

/-- The constant `Config.MAX_RETRIES`. -/
def MAX_RETRIES : Nat := 3

/-- The observable behaviour of one `_request_with_retry` call: its returned
or raised outcome (`Option.none` models Python falling off the loop and
returning `None`, possible only for a retry budget of 0), the sleeps
performed between attempts, and how many attempts were made. -/
structure RetryResult where
  result : Option (Except String Response)
  sleeps : List ℚ
  attempts : Nat

/-- The `for attempt in range(Config.MAX_RETRIES)` loop of
`_request_with_retry`: `attempt` is the current loop index and the final
argument counts the iterations remaining (`maxRetries - attempt`).  A
successful attempt returns immediately; a failing attempt re-raises if it was
the last allowed one (`attempt == Config.MAX_RETRIES - 1`) and otherwise
sleeps `0.5 * (2 ** attempt)` and continues. -/
def retryGo (f : Nat → NetOutcome) (maxRetries attempt : Nat) : Nat → RetryResult
  | 0 => ⟨Option.none, [], 0⟩
  | count + 1 =>
    match tryAttempt (f attempt) with
    | Except.ok r => ⟨some (Except.ok r), [], 1⟩
    | Except.error e =>
      if attempt = maxRetries - 1 then ⟨some (Except.error e), [], 1⟩
      else
        let rest := retryGo f maxRetries (attempt + 1) count
        ⟨rest.result, ((1 : ℚ) / 2 * 2 ^ attempt) :: rest.sleeps, rest.attempts + 1⟩

/-- Embedding of `HyperDeckClient._request_with_retry` over an attempt oracle. -/
def request_with_retry (f : Nat → NetOutcome) (maxRetries : Nat) : RetryResult :=
  retryGo f maxRetries 0 maxRetries

/-- Embedding of `HyperDeckClient.health_check`: GET the `status` resource through the
retry layer; on a returned response test `status_code == 200`; any raised
exception is swallowed and yields `False`.  (The `Option.none` case — a zero
retry budget returning `None` — would raise `AttributeError` on
`.status_code`, also swallowed.) -/
def health_check (f : Nat → NetOutcome) (maxRetries : Nat) : Bool :=
  match (request_with_retry f maxRetries).result with
  | some (Except.ok r) => r.status == 200
  | some (Except.error _) => false
  | Option.none => false

/-! ### The transport cache and the mutating commands

`v2.py` decorates `get_transport` with `functools.lru_cache(maxsize=128)`.
The cache is modelled as a most-recent-first association list of transport
index to snapshot: a hit moves the entry to the front, a miss on a successful
fetch inserts at the front and drops beyond 128 entries (evicting the least
recently used), and a raising call caches nothing.  The device side of a
single `get_transport` fetch is an `Except String Response` argument: the
already-retried outcome of `_request_with_retry` (always `some` for the
configured budget of 3). -/

/-- The `functools.lru_cache` maxsize used on `get_transport`. -/
def CACHE_MAXSIZE : Nat := 128

/-- The mutable state of a `HyperDeckClient` relevant to this layer: the
`lru_cache` entries of `get_transport`, most recently used first. -/
structure ClientState where
  cache : List (Int × PyVal)

/-- Cache lookup by transport index. -/
def lruLookup (idx : Int) : List (Int × PyVal) → Option PyVal
  | [] => Option.none
  | e :: rest => if e.1 == idx then some e.2 else lruLookup idx rest

/-- Remove every entry for `idx` (used to move a hit entry to the front). -/
def lruErase (idx : Int) : List (Int × PyVal) → List (Int × PyVal)
  | [] => []
  | e :: rest => if e.1 == idx then lruErase idx rest else e :: lruErase idx rest

/-- Embedding of `HyperDeckClient.get_transport` (the `lru_cache`-wrapped reading of
`transports/<idx>`): on a cache hit, return the memoized snapshot without any
HTTP traffic; on a miss, perform the fetch (`response.json()` raises
`ValueError` on an unparseable body, which propagates) and cache a successful
result.  Returns (outcome, new state, whether an HTTP request was issued). -/
def get_transport (net : Except String Response) (idx : Int) (st : ClientState) :
    Except String PyVal × ClientState × Bool :=
  match lruLookup idx st.cache with
  | some v => (Except.ok v, ⟨(idx, v) :: lruErase idx st.cache⟩, false)
  | Option.none =>
    match net with
    | Except.ok r =>
      match r.json with
      | some v => (Except.ok v, ⟨((idx, v) :: st.cache).take CACHE_MAXSIZE⟩, true)
      | Option.none => (Except.error "ValueError", st, true)
    | Except.error e => (Except.error e, st, true)

/-- Embedding of `HyperDeckClient._parse_response`: 204 or an empty body is a successful
empty result; otherwise the parsed JSON, or a best-effort wrapper around the
raw text when parsing fails. -/
def pyParseResponse (r : Response) : PyVal :=
  if r.status == 204 || r.content == "" then PyVal.dict []
  else
    match r.json with
    | some v => v
    | Option.none => PyVal.dict [("ok", PyVal.bool true), ("raw", PyVal.str r.content)]

/-- Embedding of `HyperDeckClient.play`: POST `transports/<idx>/play`; on success clear the
`get_transport` cache and return the parsed response; on failure re-raise with
the cache untouched. -/
def play (net : Except String Response) (st : ClientState) :
    Except String PyVal × ClientState :=
  match net with
  | Except.ok r => (Except.ok (pyParseResponse r), ⟨[]⟩)
  | Except.error e => (Except.error e, st)

/-- Embedding of `HyperDeckClient.stop`: same cache-clearing shape as `play`. -/
def stop (net : Except String Response) (st : ClientState) :
    Except String PyVal × ClientState :=
  match net with
  | Except.ok r => (Except.ok (pyParseResponse r), ⟨[]⟩)
  | Except.error e => (Except.error e, st)

/-- Embedding of `HyperDeckClient.record`: same cache-clearing shape as `play`. -/
def record (net : Except String Response) (st : ClientState) :
    Except String PyVal × ClientState :=
  match net with
  | Except.ok r => (Except.ok (pyParseResponse r), ⟨[]⟩)
  | Except.error e => (Except.error e, st)

/-- Embedding of `HyperDeckClient.shuttle`: POSTs a `rate` payload; same cache-clearing
shape as `play` (the payload does not influence the client state). -/
def shuttle (net : Except String Response) (rate : ℚ) (st : ClientState) :
    Except String PyVal × ClientState :=
  match net with
  | Except.ok r => (Except.ok (pyParseResponse r), ⟨[]⟩)
  | Except.error e => (Except.error e, st)

/-- Run a sequence of `get_transport` calls (index and device outcome for
each), threading the client state; no mutating command occurs in between. -/
def runGets (st : ClientState) : List (Int × Except String Response) → ClientState
  | [] => st
  | (i, net) :: rest => runGets (get_transport net i st).2.1 rest

/-! ### Active-clip lookup -/

/-- The linear scan of the fallback branch of `get_active_clip`:
`for clip in items: if clip.get("active") is True: return clip`.  Python
`is True` holds only for the boolean `True` object.  A non-dict entry makes
`clip.get` raise `AttributeError` (an exception inside the inner `try:`). -/
def scanActive : List PyVal → Except String (Option PyVal)
  | [] => Except.ok Option.none
  | c :: rest =>
    match c with
    | PyVal.dict kvs =>
      match pyGet kvs "active" with
      | some (.bool true) => Except.ok (some c)
      | _ => scanActive rest
    | _ => Except.error "AttributeError"

/-- Embedding of `HyperDeckClient.get_active_clip` over the outcomes of its two possible
requests: `direct` is the already-retried-and-parsed result of GET
`clips/active`, `listreq` that of GET `clips` (each `Except.error` covers any
raised exception, network-level, HTTP, or JSON parse).  The structure mirrors
the nested `try`/`except` blocks: any failure of the direct path falls back to
the clip list; any failure there is absorbed; falling off returns `None`. -/
def get_active_clip (direct listreq : Except String PyVal) :
    Except String (Option PyVal) :=
  match direct with
  | Except.ok v => Except.ok (some v)
  | Except.error _ =>
    match listreq with
    | Except.error _ => Except.ok Option.none
    | Except.ok clips =>
      let items : Option PyVal :=
        match clips with
        | PyVal.dict kvs => pyGet kvs "items"
        | v => some v
      match items with
      | some (PyVal.list xs) =>
        match scanActive xs with
        | Except.ok (some c) => Except.ok (some c)
        | Except.ok Option.none => Except.ok Option.none
        | Except.error _ => Except.ok Option.none
      | _ => Except.ok Option.none

/-! ### Connection tracking -/

/-- The field default `ConnectionManager.connection_check_interval` (seconds). -/
def connection_check_interval : ℚ := 5

/-- The state of a `ConnectionManager` (the construction-time fields
`is_connected = False`, `last_connection_check = 0`). -/
structure ConnectionManager where
  is_connected : Bool
  last_connection_check : ℚ

/-- Embedding of `ConnectionManager.check_connection`: given the current clock reading and
the boolean a fresh `health_check` probe would produce, return the reported
boolean, the successor state, and whether a probe was actually performed. -/
def check_connection (cm : ConnectionManager) (current_time : ℚ) (health : Bool) :
    Bool × ConnectionManager × Bool :=
  if current_time - cm.last_connection_check < connection_check_interval then
    (cm.is_connected, cm, false)
  else
    (health, ⟨health, current_time⟩, true)

/-- Embedding of `ConnectionManager.get_connection_status`: the boolean from
`check_connection` paired with its descriptive label. -/
def get_connection_status (cm : ConnectionManager) (current_time : ℚ) (health : Bool) :
    (Bool × String) × ConnectionManager × Bool :=
  let r := check_connection cm current_time health
  ((r.1, if r.1 then "Connected" else "Disconnected"), r.2.1, r.2.2)

/-! ### URL normalization -/

/-- Does `s` start with `pat`? (List-level computation.) -/
def strStarts (s pat : String) : Bool :=
  s.toList.take pat.toList.length == pat.toList

/-- Does `s` end with `pat`? (List-level computation.) -/
def strEnds (s pat : String) : Bool :=
  s.toList.drop (s.toList.length - pat.toList.length) == pat.toList

/-- Python `re.match(r"^https?://", s, re.I)` as a Boolean: a case-insensitive
scheme test anchored at the start. -/
def startsHttpScheme (s : String) : Bool :=
  strStarts (pyLower s) "http://" || strStarts (pyLower s) "https://"

/-- Python `re.search(r"/control/api/v1/?$", s, re.I)` as a Boolean: the
lowercased string ends with the control path, with or without one trailing
slash. -/
def endsControlPath (s : String) : Bool :=
  strEnds (pyLower s) "/control/api/v1" || strEnds (pyLower s) "/control/api/v1/"

/-- Python `re.sub(r"/?$", "/", s)`.  Under Python ≥ 3.7 (required by this
code base), `re.sub` also substitutes an empty match adjacent to a previous
non-empty match, so a string already ending in `"/"` has that slash replaced
*and* a second `"/"` substituted for the empty match at the very end: the
result is always `s ++ "/"`. -/
def subSlashEnd (s : String) : String := s ++ "/"

/-- Python `re.sub(r"/+$", "", s)`: drop the maximal trailing run of
slashes. -/
def stripTrailSlashes (s : String) : String :=
  String.mk (s.toList.reverse.dropWhile (fun c => c = '/')).reverse

/-- Embedding of `normalize_base_url` (identical in both files). -/
def normalize_base_url (s0 : String) : String :=
  let s := pyStrip s0
  if s = "" then ""
  else
    let s := if startsHttpScheme s then s else "http://" ++ s
    let s := pyStrip s
    if endsControlPath s then subSlashEnd s
    else stripTrailSlashes s ++ "/control/api/v1/"

/-! ### Concrete inputs used by witnesses and counterexamples -/

/-- An attempt oracle that fails the first two attempts with a network error
and succeeds on the third. -/
def failTwice : Nat → NetOutcome :=
  fun n => if n < 2 then NetOutcome.netErr "timeout" else NetOutcome.resp 200 "x" (some (PyVal.dict []))

/-- An attempt oracle whose device always answers 204 No Content. -/
def const204 : Nat → NetOutcome :=
  fun _ => NetOutcome.resp 204 "" Option.none

/-- A trace of 128 successful `get_transport` fetches at the distinct indices 1..128. -/
def c10Trace : List (Int × Except String Response) :=
  (List.range 128).map
    (fun i => ((i : Int) + 1, Except.ok ⟨200, "x", some (PyVal.int ((i : Int) + 1))⟩))

/-- The client state after `get_transport(0)` (caching the snapshot `0`)
followed by the 128 fetches of `c10Trace`, with no command in between. -/
def c10State : ClientState :=
  runGets (get_transport (Except.ok ⟨200, "x", some (PyVal.int 0)⟩) 0 ⟨[]⟩).2.1 c10Trace

/-! ## Helper lemmas -/

theorem deriveStateLoop_eq_findSome (tr : List (String × PyVal)) :
    ∀ ks : List String,
      deriveStateLoop tr ks =
        ks.findSome? (fun k =>
          match pyGet tr k with
          | some (.str s) => if pyStrip s = "" then Option.none else some s
          | _ => Option.none) := by
  intro ks
  induction ks with
  | nil => rfl
  | cons k ks ih =>
    simp only [deriveStateLoop, List.findSome?]
    cases h : pyGet tr k with
    | none => simpa [h] using ih
    | some v =>
      cases v with
      | str s =>
        by_cases hs : pyStrip s = "" <;> simp [hs, ih]
      | int n => simpa using ih
      | float q => simpa using ih
      | bool b => simpa using ih
      | none => simpa using ih
      | list xs => simpa using ih
      | dict kvs => simpa using ih

theorem deriveTimecodeLoop_eq_findSome (tr : List (String × PyVal)) :
    ∀ ks : List String,
      deriveTimecodeLoop tr ks =
        (ks.findSome? (fun k =>
          match pyGet tr k with
          | some (.str s) => if pyStrip s = "" then Option.none else some (Sum.inl s)
          | some v => (pyIntOf v).map Sum.inr
          | Option.none => Option.none)).map
          (fun c => match c with
            | Sum.inl s => s
            | Sum.inr n => fmtSecondsTC n) := by
  intro ks
  induction ks with
  | nil => rfl
  | cons k ks ih =>
    simp only [deriveTimecodeLoop, List.findSome?]
    cases h : pyGet tr k with
    | none => simpa [h] using ih
    | some v =>
      cases v with
      | str s =>
        by_cases hs : pyStrip s = "" <;> simp [hs, ih, pyIntOf]
      | int n => simp [pyIntOf]
      | float q => simp [pyIntOf]
      | bool b => simp [pyIntOf]
      | none => simpa [pyIntOf] using ih
      | list xs => simpa [pyIntOf] using ih
      | dict kvs => simpa [pyIntOf] using ih

theorem deriveClipLoop_eq_findSome (kvs : List (String × PyVal)) :
    ∀ ks : List String,
      deriveClipLoop kvs ks =
        ks.findSome? (fun k =>
          match pyGet kvs k with
          | some (.str s) => if pyStrip s = "" then Option.none else some s
          | _ => Option.none) := by
  intro ks
  induction ks with
  | nil => rfl
  | cons k ks ih =>
    simp only [deriveClipLoop, List.findSome?]
    cases h : pyGet kvs k with
    | none => simpa [h] using ih
    | some v =>
      cases v with
      | str s =>
        by_cases hs : pyStrip s = "" <;> simp [hs, ih]
      | int n => simpa using ih
      | float q => simpa using ih
      | bool b => simpa using ih
      | none => simpa using ih
      | list xs => simpa using ih
      | dict d => simpa using ih

theorem match_map_elim (o : Option (String ⊕ Int)) (d : String) (g : Int → String) :
    (match o.map (fun c => match c with | Sum.inl s => s | Sum.inr n => g n) with
      | some s => s
      | Option.none => d) =
    (match o with
      | some (Sum.inl s) => s
      | some (Sum.inr n) => g n
      | Option.none => d) := by
  cases o with
  | none => rfl
  | some c => cases c <;> rfl

theorem fmtSecondsTC_formula (n : Int) :
    fmtSecondsTC n =
      pyFmt02 (n.fdiv 3600) ++ ":" ++ pyFmt02 ((n.fmod 3600).fdiv 60) ++ ":" ++
        pyFmt02 ((n.fmod 3600).fmod 60) ++ ":00" := rfl

/-! ## Claims -/

/-- C1, counterexample: the claim says the winning candidate value is returned
"trimmed of surrounding whitespace", but `derive_state` returns the raw value:
the snapshot with `status` set to `" Play "` yields `" Play "`, not its
trimmed form `"Play"`. -/
theorem C1_counterexample :
    derive_state [("status", PyVal.str " Play ")] = " Play " ∧
    pyStrip " Play " = "Play" ∧
    " Play " ≠ "Play" := by
  refine ⟨by decide, by decide, by decide⟩

/-- C1 (amended): for every transport snapshot, `derive_state` returns the
value of the first field among status, state, transport, transportState,
transportMode, mode, playbackStatus whose value is a string with non-empty
trimmed content, returned verbatim (the trim is only the non-emptiness test);
if no such field exists it returns "Recording" / "Playing" / "Stopped" by the
truthy flag fallbacks in that priority order, and otherwise "Unknown". -/
theorem C1_state_derivation :
    (∀ tr : List (String × PyVal), derive_state tr = deriveStateClaim tr) ∧
    derive_state [("isRecording", PyVal.str "true")] = "Recording" ∧
    derive_state [("playing", PyVal.str "1")] = "Playing" ∧
    derive_state [("stopped", PyVal.str "on")] = "Stopped" ∧
    derive_state [] = "Unknown" := by
  refine ⟨?_, by decide, by decide, by decide, by decide⟩
  intro tr
  unfold derive_state deriveStateClaim stateFieldClaim
  rw [deriveStateLoop_eq_findSome]

/-- C2: for every transport snapshot, `derive_timecode` scans position,
timecode, time, tc, currentTimecode in order; the first usable candidate
decides: a string with non-blank content is returned verbatim, a numeric
value is read as whole seconds and formatted `HH:MM:SS:00` with the frame
field hard-coded to `00`; with no usable candidate the result is
`"00:00:00:00"`.  In particular `position: 3725` yields `"01:02:05:00"`. -/
theorem C2_timecode_derivation :
    (∀ tr : List (String × PyVal), derive_timecode tr = deriveTimecodeClaim tr) ∧
    derive_timecode [("position", PyVal.int 3725)] = "01:02:05:00" ∧
    derive_timecode [("timecode", PyVal.str "00:10:00:05")] = "00:10:00:05" ∧
    derive_timecode [] = "00:00:00:00" := by
  refine ⟨?_, by decide, by decide, by decide⟩
  intro tr
  unfold derive_timecode deriveTimecodeClaim tcCandidateClaim
  rw [deriveTimecodeLoop_eq_findSome]
  exact match_map_elim _ _ _

/-- C3, counterexample: the claim says the empty clip object yields
`"Unnamed"`, but `if not clip_info` treats the empty dict as absent, so
`derive_active_clip_name` returns the placeholder `"—"` for it. -/
theorem C3_counterexample :
    derive_active_clip_name (some []) = "—" ∧
    "—" ≠ "Unnamed" := by
  refine ⟨by decide, by decide⟩

/-- C3 (amended): `derive_active_clip_name` returns the em-dash placeholder
for an absent clip and also for the empty clip object (Python falsiness of
the empty dict); for any non-empty clip object it returns the first value
among name, clipName, title, filename that is a string with non-blank
content, returned verbatim, and `"Unnamed"` when none is — in particular
`filename: "reel_007"` yields `"reel_007"`. -/
theorem C3_clip_name_derivation :
    (∀ c : Option (List (String × PyVal)),
      derive_active_clip_name c = deriveClipNameClaim c) ∧
    derive_active_clip_name Option.none = "—" ∧
    derive_active_clip_name (some [("filename", PyVal.str "reel_007")]) = "reel_007" ∧
    derive_active_clip_name (some [("bitrate", PyVal.int 90)]) = "Unnamed" := by
  refine ⟨?_, by decide, by decide, by decide⟩
  intro c
  match c with
  | Option.none => rfl
  | some [] => rfl
  | some (e :: kvs) =>
    simp only [derive_active_clip_name, deriveClipNameClaim, List.isEmpty_cons,
      Bool.false_eq_true, if_false, deriveClipLoop_eq_findSome]

theorem attemptOK_false_iff (o : NetOutcome) :
    attemptOK o = false ↔ ∃ e, tryAttempt o = Except.error e := by
  unfold attemptOK
  cases h : tryAttempt o with
  | ok r => simp
  | error e => simp

theorem attemptOK_true_iff (o : NetOutcome) :
    attemptOK o = true ↔ ∃ r, tryAttempt o = Except.ok r := by
  unfold attemptOK
  cases h : tryAttempt o with
  | ok r => simp
  | error e => simp

theorem retryGo_ok (f : Nat → NetOutcome) (mr : Nat) :
    ∀ (j a count : Nat), j < count → a + count = mr →
      (∀ k, k < j → attemptOK (f (a + k)) = false) → attemptOK (f (a + j)) = true →
      retryGo f mr a count =
        ⟨some (tryAttempt (f (a + j))),
         (List.range' a j).map (fun k => (1 : ℚ) / 2 * 2 ^ k), j + 1⟩ := by
  intro j
  induction j with
  | zero =>
    intro a count hj hsum hfail hok
    match count, hj with
    | count + 1, _ =>
      simp only [retryGo]
      obtain ⟨r, hr⟩ := (attemptOK_true_iff _).mp (by simpa using hok)
      simp [hr, List.range']
  | succ j ih =>
    intro a count hj hsum hfail hok
    match count, hj with
    | count + 1, _ =>
      simp only [retryGo]
      have h0 : attemptOK (f a) = false := by simpa using hfail 0 (Nat.succ_pos j)
      obtain ⟨e, he⟩ := (attemptOK_false_iff _).mp h0
      have hne : a ≠ mr - 1 := by omega
      have hrec := ih (a + 1) count (by omega) (by omega)
        (fun k hk => by
          have := hfail (k + 1) (by omega)
          simpa [Nat.add_assoc, Nat.add_comm 1 k] using this)
        (by
          have := hok
          simpa [Nat.add_assoc, Nat.add_comm 1 j] using this)
      simp only [he, hne, if_false, hrec]
      have hidx : a + 1 + j = a + (j + 1) := by omega
      rw [hidx, List.range'_succ]
      simp

theorem retryGo_allFail (f : Nat → NetOutcome) (mr : Nat) :
    ∀ (count a : Nat), 0 < count → a + count = mr →
      (∀ k, k < count → attemptOK (f (a + k)) = false) →
      retryGo f mr a count =
        ⟨some (tryAttempt (f (mr - 1))),
         (List.range' a (count - 1)).map (fun k => (1 : ℚ) / 2 * 2 ^ k), count⟩ := by
  intro count
  induction count with
  | zero => intro a h0; omega
  | succ c ih =>
    intro a _ hsum hfail
    have h0 : attemptOK (f a) = false := by simpa using hfail 0 (Nat.succ_pos c)
    obtain ⟨e, he⟩ := (attemptOK_false_iff _).mp h0
    match c, hsum, ih, hfail with
    | 0, hsum, _, _ =>
      have ha : a = mr - 1 := by omega
      subst ha
      conv_lhs => rw [retryGo]
      simp [he, List.range']
    | c + 1, hsum, ih, hfail =>
      conv_lhs => rw [retryGo]
      have hne : a ≠ mr - 1 := by omega
      have hrec := ih (a + 1) (Nat.succ_pos c) (by omega)
        (fun k hk => by
          have := hfail (k + 1) (by omega)
          simpa [Nat.add_assoc, Nat.add_comm 1 k] using this)
      simp only [he, hne, if_false, hrec]
      rw [show c + 1 + 1 - 1 = c + 1 from rfl, List.range'_succ]
      simp

/-- C4: a logical request through `_request_with_retry` makes at most
`maxRetries` attempts, sleeping `0.5 * 2 ^ attempt` between attempts.  If the
first success is attempt `j` (all earlier attempts failing), the call returns
that success after `j + 1` attempts with sleeps `0.5 * 2^0, ..., 0.5 * 2^(j-1)`
and no error surfaces; if all `maxRetries` attempts fail, the call surfaces
the last attempt's outcome (its raised error) after exactly `maxRetries`
attempts, retrying no further. -/
theorem C4_retry_policy :
    ∀ (f : Nat → NetOutcome) (mr j : Nat),
      (j < mr → (∀ k, k < j → attemptOK (f k) = false) → attemptOK (f j) = true →
        request_with_retry f mr =
          ⟨some (tryAttempt (f j)),
           (List.range j).map (fun k => (1 : ℚ) / 2 * 2 ^ k), j + 1⟩) ∧
      (0 < mr → (∀ k, k < mr → attemptOK (f k) = false) →
        request_with_retry f mr =
          ⟨some (tryAttempt (f (mr - 1))),
           (List.range (mr - 1)).map (fun k => (1 : ℚ) / 2 * 2 ^ k), mr⟩) := by
  intro f mr j
  constructor
  · intro hj hfail hok
    have := retryGo_ok f mr j 0 mr hj (by omega)
      (fun k hk => by simpa using hfail k hk) (by simpa using hok)
    simpa [request_with_retry, List.range_eq_range'] using this
  · intro h0 hfail
    have := retryGo_allFail f mr mr 0 h0 (by omega)
      (fun k hk => by simpa using hfail k hk)
    simpa [request_with_retry, List.range_eq_range'] using this

/-- C4, witness: with `MAX_RETRIES = 3` and a device failing attempts 0 and 1
and succeeding on attempt 2, the call returns the success (no error), slept
`0.5` then `1.0`, and made all 3 attempts. -/
theorem C4_witness :
    (request_with_retry failTwice MAX_RETRIES).result =
      some (Except.ok ⟨200, "x", some (PyVal.dict [])⟩) ∧
    (request_with_retry failTwice MAX_RETRIES).sleeps = [(1 : ℚ) / 2, 1] ∧
    (request_with_retry failTwice MAX_RETRIES).attempts = 3 := by
  have h := (C4_retry_policy failTwice MAX_RETRIES 2).1 (by decide)
    (fun k hk => by interval_cases k <;> rfl) rfl
  rw [h]
  refine ⟨rfl, by norm_num [List.range_succ], rfl⟩

theorem scanActive_skip :
    ∀ (pre rest : List PyVal),
      (∀ x ∈ pre, ∃ d, x = PyVal.dict d ∧ pyGet d "active" ≠ some (PyVal.bool true)) →
      scanActive (pre ++ rest) = scanActive rest := by
  intro pre
  induction pre with
  | nil => intro rest _; rfl
  | cons x pre ih =>
    intro rest h
    obtain ⟨d, rfl, hne⟩ := h x (List.mem_cons_self x pre)
    have htail := fun y hy => h y (List.mem_cons_of_mem _ hy)
    simp only [List.cons_append, scanActive]
    cases hv : pyGet d "active" with
    | none => simpa [hv] using ih rest htail
    | some w =>
      cases w with
      | bool b =>
        cases b with
        | true => exact absurd hv hne
        | false => simpa [hv] using ih rest htail
      | str s => simpa [hv] using ih rest htail
      | int n => simpa [hv] using ih rest htail
      | float q => simpa [hv] using ih rest htail
      | none => simpa [hv] using ih rest htail
      | list xs => simpa [hv] using ih rest htail
      | dict kd => simpa [hv] using ih rest htail

theorem get_active_clip_total (direct listreq : Except String PyVal) :
    ∃ r, get_active_clip direct listreq = Except.ok r := by
  cases direct with
  | ok v => exact ⟨some v, rfl⟩
  | error e =>
    cases listreq with
    | error eL => exact ⟨Option.none, rfl⟩
    | ok clips =>
      cases clips with
      | dict kvs =>
        cases hitems : pyGet kvs "items" with
        | none => exact ⟨Option.none, by simp [get_active_clip, hitems]⟩
        | some w =>
          cases w with
          | list xs =>
            cases hscan : scanActive xs with
            | ok oc =>
              cases oc with
              | none => exact ⟨Option.none, by simp [get_active_clip, hitems, hscan]⟩
              | some c => exact ⟨some c, by simp [get_active_clip, hitems, hscan]⟩
            | error e2 => exact ⟨Option.none, by simp [get_active_clip, hitems, hscan]⟩
          | str s => exact ⟨Option.none, by simp [get_active_clip, hitems]⟩
          | int n => exact ⟨Option.none, by simp [get_active_clip, hitems]⟩
          | float q => exact ⟨Option.none, by simp [get_active_clip, hitems]⟩
          | bool b => exact ⟨Option.none, by simp [get_active_clip, hitems]⟩
          | none => exact ⟨Option.none, by simp [get_active_clip, hitems]⟩
          | dict d2 => exact ⟨Option.none, by simp [get_active_clip, hitems]⟩
      | list xs =>
        cases hscan : scanActive xs with
        | ok oc =>
          cases oc with
          | none => exact ⟨Option.none, by simp [get_active_clip, hscan]⟩
          | some c => exact ⟨some c, by simp [get_active_clip, hscan]⟩
        | error e2 => exact ⟨Option.none, by simp [get_active_clip, hscan]⟩
      | str s => exact ⟨Option.none, rfl⟩
      | int n => exact ⟨Option.none, rfl⟩
      | float q => exact ⟨Option.none, rfl⟩
      | bool b => exact ⟨Option.none, rfl⟩
      | none => exact ⟨Option.none, rfl⟩

/-- C5: `get_active_clip` never propagates an error (every outcome is a
normal return); a successful direct `clips/active` request returns its parsed
body; if the direct request fails for any reason, the clip-list fallback
returns the first entry whose `active` field is exactly boolean `True` (a
string `"true"` does not qualify); if both requests fail, or no entry
qualifies, the result is the absent clip, not an exception. -/
theorem C5_active_clip :
    (∀ direct listreq, ∃ r, get_active_clip direct listreq = Except.ok r) ∧
    (∀ v listreq, get_active_clip (Except.ok v) listreq = Except.ok (some v)) ∧
    (∀ e eL, get_active_clip (Except.error e) (Except.error eL) = Except.ok Option.none) ∧
    (∀ e pre kvs post,
      (∀ x ∈ pre, ∃ d, x = PyVal.dict d ∧ pyGet d "active" ≠ some (PyVal.bool true)) →
      pyGet kvs "active" = some (PyVal.bool true) →
      get_active_clip (Except.error e)
        (Except.ok (PyVal.dict [("items", PyVal.list (pre ++ PyVal.dict kvs :: post))])) =
        Except.ok (some (PyVal.dict kvs))) ∧
    (∀ e, get_active_clip (Except.error e)
        (Except.ok (PyVal.dict
          [("items", PyVal.list [PyVal.dict [("active", PyVal.str "true")]])])) =
        Except.ok Option.none) := by
  refine ⟨get_active_clip_total, fun v listreq => rfl, fun e eL => rfl, ?_, fun e => rfl⟩
  intro e pre kvs post hpre hact
  have hscan : scanActive (pre ++ PyVal.dict kvs :: post) = Except.ok (some (PyVal.dict kvs)) := by
    rw [scanActive_skip pre _ hpre]
    simp [scanActive, hact]
  simp [get_active_clip, pyGet, hscan]

/-- C5, witness: a failing direct request, then a clip list whose first entry
is inactive and whose second is `active: True`, yields the second entry. -/
theorem C5_witness :
    get_active_clip (Except.error "boom")
      (Except.ok (PyVal.dict [("items", PyVal.list
        [PyVal.dict [("active", PyVal.bool false)],
         PyVal.dict [("active", PyVal.bool true), ("name", PyVal.str "clip2")]])])) =
      Except.ok (some (PyVal.dict [("active", PyVal.bool true), ("name", PyVal.str "clip2")])) := by
  have h := C5_active_clip.2.2.2.1 "boom"
    [PyVal.dict [("active", PyVal.bool false)]]
    [("active", PyVal.bool true), ("name", PyVal.str "clip2")] []
    (by
      intro x hx
      rw [List.mem_singleton] at hx
      subst hx
      exact ⟨_, rfl, by simp [pyGet]⟩)
    rfl
  simpa using h

/-- C6, counterexample: a device answering 204 No Content (a 2xx status) to
the health probe makes `health_check` return `false`, because the code tests
`status_code == 200`, not membership in the 2xx class. -/
theorem C6_counterexample :
    health_check const204 MAX_RETRIES = false ∧ 200 ≤ 204 ∧ 204 < 300 :=
  ⟨rfl, by decide, by decide⟩

/-- C6 (amended): `health_check` returns true exactly when the retried GET of
the status resource returns a response whose status code is exactly 200; any
2xx-but-not-200 response, any raised exception, and any error outcome yield
false, and the operation is a total boolean function (it never raises). -/
theorem C6_health_check :
    ∀ (f : Nat → NetOutcome) (mr : Nat),
      health_check f mr = true ↔
        ∃ r : Response,
          (request_with_retry f mr).result = some (Except.ok r) ∧ r.status = 200 := by
  intro f mr
  unfold health_check
  cases h : (request_with_retry f mr).result with
  | none => simp [h]
  | some x =>
    cases x with
    | ok r => simp [h]
    | error e => simp [h]

/-- C7: every successful `play`/`stop`/`record`/`shuttle` empties the cached
transport snapshots, so the next `get_transport` — at any index — issues an
HTTP request and returns the freshly fetched document, never a memoized
pre-command snapshot. -/
theorem C7_command_invalidates_cache :
    ∀ (r : Response) (st : ClientState) (rate : ℚ),
      (play (Except.ok r) st).2.cache = [] ∧
      (stop (Except.ok r) st).2.cache = [] ∧
      (record (Except.ok r) st).2.cache = [] ∧
      (shuttle (Except.ok r) rate st).2.cache = [] ∧
      (∀ (net : Except String Response) (idx : Int),
        (get_transport net idx (play (Except.ok r) st).2).2.2 = true) ∧
      (∀ (idx : Int) (s : Nat) (c : String) (v : PyVal),
        (get_transport (Except.ok ⟨s, c, some v⟩) idx (play (Except.ok r) st).2).1 =
          Except.ok v) := by
  intro r st rate
  refine ⟨rfl, rfl, rfl, rfl, ?_, ?_⟩
  · intro net idx
    cases net with
    | ok r2 =>
      cases hj : r2.json with
      | some v2 => simp [get_transport, play, lruLookup, hj]
      | none => simp [get_transport, play, lruLookup, hj]
    | error e => simp [get_transport, play, lruLookup]
  · intro idx s c v
    rfl

/-- C8: a connection-status query younger than the 5-second validity window
returns the cached boolean with its matching label and performs no probe;
a query at least the window old performs one probe, stores its result with
the current timestamp, and returns it; a further query within the window of
that refresh returns the same boolean with no second probe. -/
theorem C8_connection_status_window :
    ∀ (cm : ConnectionManager) (now t2 : ℚ) (health health2 : Bool),
      (now - cm.last_connection_check < connection_check_interval →
        get_connection_status cm now health =
          ((cm.is_connected, if cm.is_connected then "Connected" else "Disconnected"),
           cm, false)) ∧
      (connection_check_interval ≤ now - cm.last_connection_check →
        get_connection_status cm now health =
          ((health, if health then "Connected" else "Disconnected"),
           ⟨health, now⟩, true)) ∧
      (connection_check_interval ≤ now - cm.last_connection_check →
        t2 - now < connection_check_interval →
        get_connection_status (get_connection_status cm now health).2.1 t2 health2 =
          ((health, if health then "Connected" else "Disconnected"),
           ⟨health, now⟩, false)) := by
  intro cm now t2 health health2
  refine ⟨?_, ?_, ?_⟩
  · intro h
    simp [get_connection_status, check_connection, h]
  · intro h
    simp [get_connection_status, check_connection, not_lt.mpr h]
  · intro h h2
    have hmid : (get_connection_status cm now health).2.1 = ⟨health, now⟩ := by
      simp [get_connection_status, check_connection, not_lt.mpr h]
    rw [hmid]
    simp [get_connection_status, check_connection, h2]

/-- C8, witness: starting from the initial tracker state at time 10 the probe
runs (returning `true`); a second status query at time 12 — inside the
5-second window — returns the same `true` labelled `"Connected"` without a
second probe. -/
theorem C8_witness :
    connection_check_interval ≤ (10 : ℚ) - (0 : ℚ) ∧
    (12 : ℚ) - (10 : ℚ) < connection_check_interval ∧
    get_connection_status ⟨false, 0⟩ 10 true = ((true, "Connected"), ⟨true, 10⟩, true) ∧
    get_connection_status ⟨true, 10⟩ 12 false = ((true, "Connected"), ⟨true, 10⟩, false) := by
  have h5 : connection_check_interval ≤ (10 : ℚ) - (0 : ℚ) := by
    norm_num [connection_check_interval]
  have h2 : (12 : ℚ) - (10 : ℚ) < connection_check_interval := by
    norm_num [connection_check_interval]
  have hA := (C8_connection_status_window ⟨false, 0⟩ 10 12 true false).2.1 h5
  have hB := (C8_connection_status_window ⟨true, 10⟩ 12 0 false false).1 h2
  exact ⟨h5, h2, by simpa using hA, by simpa using hB⟩

/-- C9, code bug: on an input that already carries the control path with a
trailing slash, `normalize_base_url` returns a URL ending in a DOUBLE slash.
`re.sub(r"/?$", "/", s)` on Python ≥ 3.7 replaces both the final `"/"` and
the adjacent empty match at end-of-string, appending a second slash — the
function's own docstring ("Returns: Normalized URL ending with
/control/api/v1/") promises a single one. -/
theorem C9_normalize_double_slash :
    normalize_base_url "http://10.0.0.5/control/api/v1/" =
      "http://10.0.0.5/control/api/v1//" ∧
    strEnds (normalize_base_url "http://10.0.0.5/control/api/v1/") "/control/api/v1/" = false ∧
    normalize_base_url "10.0.0.5" = "http://10.0.0.5/control/api/v1/" := by
  refine ⟨by decide, by decide, by decide⟩

theorem lruLookup_mem_keys {j : Int} {v : PyVal} :
    ∀ {c : List (Int × PyVal)}, lruLookup j c = some v → j ∈ c.map Prod.fst := by
  intro c
  induction c with
  | nil => intro h; exact absurd h (by simp [lruLookup])
  | cons e rest ih =>
    intro h
    simp only [lruLookup] at h
    by_cases he : e.1 == j
    · have : e.1 = j := by simpa using he
      simp [← this]
    · rw [if_neg he] at h
      simp [ih h]

theorem lruLookup_none_not_mem {j : Int} :
    ∀ {c : List (Int × PyVal)}, lruLookup j c = Option.none → j ∉ c.map Prod.fst := by
  intro c
  induction c with
  | nil => intro _; simp
  | cons e rest ih =>
    intro h
    simp only [lruLookup] at h
    by_cases he : e.1 == j
    · rw [if_pos he] at h
      exact absurd h (by simp)
    · rw [if_neg he] at h
      have hne : ¬e.1 = j := by simpa using he
      simp only [List.map_cons, List.mem_cons]
      rintro (rfl | hmem)
      · exact hne rfl
      · exact ih h hmem

theorem lruErase_sublist (j : Int) :
    ∀ (c : List (Int × PyVal)), List.Sublist (lruErase j c) c := by
  intro c
  induction c with
  | nil => simp [lruErase]
  | cons e rest ih =>
    simp only [lruErase]
    by_cases he : e.1 == j
    · rw [if_pos he]
      exact List.Sublist.cons e ih
    · rw [if_neg he]
      exact List.Sublist.cons₂ e ih

theorem lruErase_not_mem (j : Int) :
    ∀ (c : List (Int × PyVal)), j ∉ (lruErase j c).map Prod.fst := by
  intro c
  induction c with
  | nil => simp [lruErase]
  | cons e rest ih =>
    simp only [lruErase]
    by_cases he : e.1 == j
    · rw [if_pos he]
      exact ih
    · rw [if_neg he]
      have hne : ¬e.1 = j := by simpa using he
      simp only [List.map_cons, List.mem_cons]
      rintro (rfl | hmem)
      · exact hne rfl
      · exact ih hmem

theorem lruLookup_erase_ne {i j : Int} (hij : i ≠ j) :
    ∀ (c : List (Int × PyVal)), lruLookup i (lruErase j c) = lruLookup i c := by
  intro c
  induction c with
  | nil => rfl
  | cons e rest ih =>
    by_cases he : (e.1 == j) = true
    · have hej : e.1 = j := by simpa using he
      have hei : ¬(e.1 == i) = true := by
        rw [hej]
        simpa using fun h : j = i => hij h.symm
      simp only [lruErase, lruLookup, if_pos he, if_neg hei]
      exact ih
    · simp only [lruErase, lruLookup, if_neg he]
      rw [ih]

theorem nodup_subset_dedup_length {l m : List Int} (hnd : l.Nodup) (hsub : l ⊆ m) :
    l.length ≤ m.dedup.length :=
  (hnd.subperm (fun x hx => List.mem_dedup.mpr (hsub hx))).length_le

theorem runGets_invariant (idx : Int) (v : PyVal) :
    ∀ (trace : List (Int × Except String Response)) (st : ClientState) (seen : List Int),
      (st.cache.map Prod.fst).Nodup →
      st.cache.map Prod.fst ⊆ seen →
      lruLookup idx st.cache = some v →
      (seen ++ trace.map Prod.fst).dedup.length ≤ CACHE_MAXSIZE →
      ((runGets st trace).cache.map Prod.fst).Nodup ∧
      (runGets st trace).cache.map Prod.fst ⊆ seen ++ trace.map Prod.fst ∧
      lruLookup idx (runGets st trace).cache = some v := by
  intro trace
  induction trace with
  | nil =>
    intro st seen hnd hsub hv _
    exact ⟨hnd, by simpa using hsub, hv⟩
  | cons step rest ih =>
    obtain ⟨i, net⟩ := step
    intro st seen hnd hsub hv hbound
    have hidxmem : idx ∈ st.cache.map Prod.fst := lruLookup_mem_keys hv
    have hbound2 :
        ((seen ++ [i]) ++ rest.map Prod.fst).dedup.length ≤ CACHE_MAXSIZE := by
      simpa [List.append_assoc] using hbound
    have hseen2 : st.cache.map Prod.fst ⊆ seen ++ [i] :=
      fun x hx => List.mem_append_left _ (hsub hx)
    have himem2 : i ∈ seen ++ [i] := List.mem_append_right _ (List.mem_singleton.mpr rfl)
    have hgoalsub :
        ∀ (st2 : ClientState),
          st2.cache.map Prod.fst ⊆ (seen ++ [i]) ++ rest.map Prod.fst →
          st2.cache.map Prod.fst ⊆ seen ++ ((i, net) :: rest).map Prod.fst := by
      intro st2 h x hx
      have hx2 := h hx
      simpa [List.append_assoc] using hx2
    have hstep : runGets st ((i, net) :: rest) = runGets (get_transport net i st).2.1 rest := rfl
    rw [hstep]
    cases hhit : lruLookup i st.cache with
    | some w =>
      have hst : (get_transport net i st).2.1 = ⟨(i, w) :: lruErase i st.cache⟩ := by
        simp [get_transport, hhit]
      rw [hst]
      have hnd2 : (((i, w) :: lruErase i st.cache).map Prod.fst).Nodup := by
        simp only [List.map_cons, List.nodup_cons]
        exact ⟨lruErase_not_mem i st.cache,
          hnd.sublist (List.Sublist.map Prod.fst (lruErase_sublist i st.cache))⟩
      have hsub2 : ((i, w) :: lruErase i st.cache).map Prod.fst ⊆ seen ++ [i] := by
        simp only [List.map_cons]
        intro x hx
        rcases List.mem_cons.mp hx with rfl | hx2
        · exact himem2
        · exact hseen2 (((lruErase_sublist i st.cache).map Prod.fst).subset hx2)
      have hv2 : lruLookup idx ((i, w) :: lruErase i st.cache) = some v := by
        by_cases hii : i = idx
        · subst hii
          rw [hhit] at hv
          simp only [lruLookup, beq_self_eq_true, if_true]
          exact hv
        · simp only [lruLookup]
          rw [if_neg (by simpa using hii),
            lruLookup_erase_ne (fun h => hii h.symm) st.cache]
          exact hv
      obtain ⟨ha, hb, hc⟩ := ih ⟨(i, w) :: lruErase i st.cache⟩ (seen ++ [i]) hnd2 hsub2 hv2 hbound2
      exact ⟨ha, hgoalsub _ hb, hc⟩
    | none =>
      have hinot : i ∉ st.cache.map Prod.fst := lruLookup_none_not_mem hhit
      have hiidx : idx ≠ i := fun h => hinot (h ▸ hidxmem)
      cases net with
      | error e =>
        have hst : (get_transport (Except.error e) i st).2.1 = st := by
          simp [get_transport, hhit]
        rw [hst]
        obtain ⟨ha, hb, hc⟩ := ih st (seen ++ [i]) hnd hseen2 hv hbound2
        exact ⟨ha, hgoalsub _ hb, hc⟩
      | ok r =>
        cases hj : r.json with
        | none =>
          have hst : (get_transport (Except.ok r) i st).2.1 = st := by
            simp [get_transport, hhit, hj]
          rw [hst]
          obtain ⟨ha, hb, hc⟩ := ih st (seen ++ [i]) hnd hseen2 hv hbound2
          exact ⟨ha, hgoalsub _ hb, hc⟩
        | some w =>
          have hnd1 : (((i, w) :: st.cache).map Prod.fst).Nodup := by
            simp only [List.map_cons, List.nodup_cons]
            exact ⟨hinot, hnd⟩
          have hsub1 : ((i, w) :: st.cache).map Prod.fst ⊆ seen ++ [i] := by
            simp only [List.map_cons]
            intro x hx
            rcases List.mem_cons.mp hx with rfl | hx2
            · exact himem2
            · exact hseen2 hx2
          have hsubfull : ((i, w) :: st.cache).map Prod.fst ⊆
              seen ++ ((i, Except.ok r) :: rest).map Prod.fst := by
            intro x hx
            have hx1 := hsub1 hx
            rcases List.mem_append.mp hx1 with h1 | h2
            · exact List.mem_append_left _ h1
            · rw [List.mem_singleton] at h2
              subst h2
              exact List.mem_append_right _ (by simp)
          have hlen : ((i, w) :: st.cache).length ≤ CACHE_MAXSIZE := by
            have h1 : (((i, w) :: st.cache).map Prod.fst).length ≤
                (seen ++ ((i, Except.ok r) :: rest).map Prod.fst).dedup.length :=
              nodup_subset_dedup_length hnd1 hsubfull
            calc ((i, w) :: st.cache).length
                = (((i, w) :: st.cache).map Prod.fst).length := (List.length_map _ _).symm
              _ ≤ (seen ++ ((i, Except.ok r) :: rest).map Prod.fst).dedup.length := h1
              _ ≤ CACHE_MAXSIZE := hbound
          have htake : ((i, w) :: st.cache).take CACHE_MAXSIZE = (i, w) :: st.cache :=
            List.take_of_length_le hlen
          have hst : (get_transport (Except.ok r) i st).2.1 = ⟨(i, w) :: st.cache⟩ := by
            simp [get_transport, hhit, hj, htake]
          rw [hst]
          have hv1 : lruLookup idx ((i, w) :: st.cache) = some v := by
            simp only [lruLookup]
            rw [if_neg (by simpa using fun h : i = idx => hiidx h.symm)]
            exact hv
          obtain ⟨ha, hb, hc⟩ := ih ⟨(i, w) :: st.cache⟩ (seen ++ [i]) hnd1 hsub1 hv1 hbound2
          exact ⟨ha, hgoalsub _ hb, hc⟩

/-- C10 (amended): a snapshot cached for some index is returned by every
later `get_transport` call at that index, identically and with no HTTP
request issued, across any interleaved sequence of `get_transport` calls —
provided the indices in play (cached ones plus those of the interleaved
calls) number at most the cache capacity of 128, so that no LRU eviction
occurs (the UI only ever uses indices 0–7); there is no time-based expiry.
Only a successful command (which clears the cache, see the C7 theorem) or an
LRU eviction beyond 128 distinct indices (see the counterexample) can make a
later call fetch again. -/
theorem C10_memoized_transport :
    ∀ (st : ClientState) (idx : Int) (v : PyVal)
      (trace : List (Int × Except String Response)) (net : Except String Response),
      (st.cache.map Prod.fst).Nodup →
      lruLookup idx st.cache = some v →
      (st.cache.map Prod.fst ++ trace.map Prod.fst).dedup.length ≤ CACHE_MAXSIZE →
      (get_transport net idx (runGets st trace)).1 = Except.ok v ∧
      (get_transport net idx (runGets st trace)).2.2 = false := by
  intro st idx v trace net hnd hv hbound
  obtain ⟨_, _, hv2⟩ :=
    runGets_invariant idx v trace st (st.cache.map Prod.fst) hnd (fun x hx => hx) hv hbound
  refine ⟨?_, ?_⟩ <;> simp [get_transport, hv2]

/-- C10, witness: with index 5 cached as snapshot `42`, an interleaved fetch
of index 6 does not disturb it: the next `get_transport(5)` — even with the
device unreachable — returns `42` without issuing a request. -/
theorem C10_witness :
    (get_transport (Except.error "down") 5
      (runGets ⟨[((5 : Int), PyVal.int 42)]⟩
        [((6 : Int), Except.ok ⟨200, "x", some (PyVal.int 7)⟩)])).1 =
      Except.ok (PyVal.int 42) ∧
    (get_transport (Except.error "down") 5
      (runGets ⟨[((5 : Int), PyVal.int 42)]⟩
        [((6 : Int), Except.ok ⟨200, "x", some (PyVal.int 7)⟩)])).2.2 = false :=
  C10_memoized_transport ⟨[(5, PyVal.int 42)]⟩ 5 (PyVal.int 42)
    [(6, Except.ok ⟨200, "x", some (PyVal.int 7)⟩)] (Except.error "down")
    (by decide) rfl (by decide)

set_option maxRecDepth 100000 in
/-- C10, counterexample: the claim as stated ("every later getTransport call
with the same index returns that identical cached snapshot without issuing
any HTTP request, until a command clears the cache") fails: the cache is an
LRU of maxsize 128, so after `get_transport(0)` caches snapshot `0`,
128 further `get_transport` calls at indices 1..128 — with no command in
between — evict index 0, and the next `get_transport(0)` issues an HTTP
request and returns the device's changed snapshot. -/
theorem C10_counterexample :
    (get_transport (Except.ok ⟨200, "x", some (PyVal.int 0)⟩) 0 ⟨[]⟩).1 =
      Except.ok (PyVal.int 0) ∧
    (get_transport (Except.ok ⟨200, "x", some (PyVal.str "changed")⟩) 0 c10State).1 =
      Except.ok (PyVal.str "changed") ∧
    (get_transport (Except.ok ⟨200, "x", some (PyVal.str "changed")⟩) 0 c10State).2.2 = true ∧
    PyVal.str "changed" ≠ PyVal.int 0 := by
  refine ⟨rfl, rfl, rfl, fun h => by cases h⟩
